import Mathlib

/-!
Verification development for the user-profile-analyzer pipeline
(`src/user_profile_analyzer/generate_profile.py`).

The Python code is shallowly embedded: Mongo documents become Lean
structures, dicts become association lists with first-match lookup,
`defaultdict` counting loops become "distinct keys in first-insertion
order, each mapped to its final count", and Python's stable `sorted`
becomes `List.insertionSort` over a total antisymmetric key (stable
sorting by one key on distinctly-indexed items yields the unique
arrangement sorted by the lexicographic (key, original index) order,
which any correct sort of that order produces).  Fallible awaits and
Python exceptions are modelled with `Except String`.
-/

namespace UPA

/-- JSON-ish value held in a Mongo document field.  Field values that the
pipeline never inspects are carried opaquely as `JValue`s. -/
inductive JValue where
  | null
  | str (s : String)
  | num (n : Int)
  | boolean (b : Bool)
  | arr (elems : List JValue)
  | obj (fields : List (String × JValue))

/-- A Python dict with string keys, as an insertion-ordered association
list with unique keys. -/
abbrev JDict := List (String × JValue)

/-- `d.get(k)` on a Python dict: first matching key, `None` when absent. -/
def dictGet (d : JDict) (k : String) : Option JValue :=
  (d.find? (fun kv => kv.1 == k)).map (fun kv => kv.2)

/-- `datetime.datetime` as used by the script (naive, field-ordered). -/
structure PyDateTime where
  year : Nat
  month : Nat
  day : Nat
  hour : Nat
  minute : Nat
  second : Nat
deriving DecidableEq

/-- `datetime.date`, the value of `datetime.date()`. -/
structure PyDate where
  year : Nat
  month : Nat
  day : Nat
deriving DecidableEq

/-- `d.date()` in Python: drop the time-of-day fields. -/
def PyDateTime.date (d : PyDateTime) : PyDate := ⟨d.year, d.month, d.day⟩

/-- Python datetime comparison: lexicographic on the six fields. -/
def PyDateTime.le (a b : PyDateTime) : Bool :=
  decide (a.year < b.year) || (a.year == b.year &&
    (decide (a.month < b.month) || (a.month == b.month &&
      (decide (a.day < b.day) || (a.day == b.day &&
        (decide (a.hour < b.hour) || (a.hour == b.hour &&
          (decide (a.minute < b.minute) || (a.minute == b.minute &&
            decide (a.second ≤ b.second))))))))))

/-- First occurrence of each element, in first-occurrence order, skipping
elements already in `seen`.  This is the key order of a Python dict that
was filled by the loops below (keys appear at first insertion). -/
def firstSeenAux [DecidableEq α] (seen : List α) : List α → List α
  | [] => []
  | x :: xs => if x ∈ seen then firstSeenAux seen xs else x :: firstSeenAux (x :: seen) xs

/-- Distinct elements of `l` in first-occurrence order. -/
def firstSeen [DecidableEq α] (l : List α) : List α := firstSeenAux [] l

theorem mem_firstSeenAux [DecidableEq α] {a : α} :
    ∀ {l seen : List α}, a ∈ firstSeenAux seen l ↔ a ∈ l ∧ a ∉ seen := by
  intro l
  induction l with
  | nil => intro seen; simp [firstSeenAux]
  | cons x xs ih =>
    intro seen
    by_cases hx : x ∈ seen
    · rw [firstSeenAux, if_pos hx, ih, List.mem_cons]
      constructor
      · rintro ⟨h1, h2⟩
        exact ⟨Or.inr h1, h2⟩
      · rintro ⟨h1 | h1, h2⟩
        · exact absurd hx (h1 ▸ h2)
        · exact ⟨h1, h2⟩
    · rw [firstSeenAux, if_neg hx, List.mem_cons, List.mem_cons]
      constructor
      · rintro (rfl | h)
        · exact ⟨Or.inl rfl, hx⟩
        · obtain ⟨h1, h2⟩ := ih.mp h
          exact ⟨Or.inr h1, fun hs => h2 (List.mem_cons.mpr (Or.inr hs))⟩
      · rintro ⟨rfl | h1, h2⟩
        · exact Or.inl rfl
        · by_cases hax : a = x
          · exact Or.inl hax
          · refine Or.inr (ih.mpr ⟨h1, fun hs => ?_⟩)
            rcases List.mem_cons.mp hs with h | h
            · exact hax h
            · exact h2 h

theorem mem_firstSeen [DecidableEq α] {a : α} {l : List α} :
    a ∈ firstSeen l ↔ a ∈ l := by
  simp [firstSeen, mem_firstSeenAux]

theorem nodup_firstSeenAux [DecidableEq α] :
    ∀ (l seen : List α), (firstSeenAux seen l).Nodup := by
  intro l
  induction l with
  | nil => intro seen; simp [firstSeenAux]
  | cons x xs ih =>
    intro seen
    by_cases hx : x ∈ seen
    · simpa [firstSeenAux, if_pos hx] using ih seen
    · simp only [firstSeenAux, if_neg hx, List.nodup_cons]
      refine ⟨fun hmem => ?_, ih (x :: seen)⟩
      exact (mem_firstSeenAux.mp hmem).2 (List.mem_cons_self x seen)

theorem nodup_firstSeen [DecidableEq α] (l : List α) : (firstSeen l).Nodup :=
  nodup_firstSeenAux l []

theorem firstSeenAux_map [DecidableEq α] [DecidableEq β] {f : α → β}
    (hf : Function.Injective f) :
    ∀ (l seen : List α),
      firstSeenAux (seen.map f) (l.map f) = (firstSeenAux seen l).map f := by
  intro l
  induction l with
  | nil => intro seen; simp [firstSeenAux]
  | cons x xs ih =>
    intro seen
    by_cases hx : x ∈ seen
    · have hfx : f x ∈ seen.map f := List.mem_map_of_mem f hx
      simp only [List.map_cons, firstSeenAux, if_pos hx, if_pos hfx, ih]
    · have hfx : f x ∉ seen.map f := by
        intro hmem
        exact hx ((List.mem_map_of_injective hf).mp hmem)
      simp only [List.map_cons, firstSeenAux, if_neg hx, if_neg hfx]
      exact congrArg (fun t => f x :: t) (ih (x :: seen))

theorem firstSeen_map [DecidableEq α] [DecidableEq β] {f : α → β}
    (hf : Function.Injective f) (l : List α) :
    firstSeen (l.map f) = (firstSeen l).map f := by
  simpa [firstSeen] using firstSeenAux_map hf l []

/-! ## Workflow nodes and the fingerprint engine -/

/-- A workflow node as read from a `flow_task`/`flow` document.

`type_field` distinguishes the three shapes `node.get("type", "unknown")`
distinguishes: key absent (`none`), key present with value `None`
(`some none`), key present with a string (`some (some t)`).
A `data` key that is absent is modelled as the empty dict, matching
`node.get("data", {})`. -/
structure Node where
  id : JValue := .null
  type_field : Option (Option String) := none
  data : JDict := []

/-- `node.get("type", "unknown")`: the default only fires when the key is
absent; a present `None` stays `None` (modelled as `none`). -/
def nodeTypeKey (n : Node) : Option String :=
  match n.type_field with
  | none => some "unknown"
  | some v => v

/-- The list of per-node counting keys of a node list. -/
def typeKeys (nodes : List Node) : List (Option String) := nodes.map nodeTypeKey

/-- The `type_counts` defaultdict of `generate_workflow_signature`:
distinct keys in first-insertion order, each with its final count. -/
def countTypes (nodes : List Node) : List (Option String × Nat) :=
  (firstSeen (typeKeys nodes)).map (fun k => (k, (typeKeys nodes).count k))

/-- `str(k)` for a counting key: Python renders `None` as `"None"`. -/
def pyStrOfKey : Option String → String
  | none => "None"
  | some s => s

theorem charToNat_inj {c d : Char} (h : c.toNat = d.toNat) : c = d :=
  Char.ext (UInt32.toNat.inj h)

/-- Code-point lexicographic string order, exactly Python's `str <=`. -/
def lexLe : List Char → List Char → Bool
  | [], _ => true
  | _ :: _, [] => false
  | c :: cs, d :: ds =>
    if c.toNat < d.toNat then true
    else if d.toNat < c.toNat then false
    else lexLe cs ds

/-- Python string comparison `a <= b` (by Unicode code points). -/
def strLeB (a b : String) : Bool := lexLe a.data b.data

theorem lexLe_total : ∀ (xs ys : List Char), lexLe xs ys = true ∨ lexLe ys xs = true := by
  intro xs
  induction xs with
  | nil => intro ys; exact Or.inl rfl
  | cons c cs ih =>
    intro ys
    cases ys with
    | nil => exact Or.inr rfl
    | cons d ds =>
      simp only [lexLe]
      by_cases hcd : c.toNat < d.toNat
      · left; simp [hcd]
      · by_cases hdc : d.toNat < c.toNat
        · right; simp [hdc]
        · rcases ih ds with h | h
          · left; simp [hcd, hdc, h]
          · right; simp [hcd, hdc, h]

theorem lexLe_trans : ∀ (xs ys zs : List Char),
    lexLe xs ys = true → lexLe ys zs = true → lexLe xs zs = true := by
  intro xs
  induction xs with
  | nil => intro ys zs _ _; rfl
  | cons c cs ih =>
    intro ys zs h1 h2
    cases ys with
    | nil => simp [lexLe] at h1
    | cons d ds =>
      cases zs with
      | nil => simp [lexLe] at h2
      | cons e es =>
        simp only [lexLe] at h1 h2 ⊢
        by_cases hcd : c.toNat < d.toNat
        · by_cases hde : d.toNat < e.toNat
          · simp [lt_trans hcd hde]
          · by_cases hed : e.toNat < d.toNat
            · rw [if_neg hde, if_pos hed] at h2
              exact absurd h2 (by simp)
            · have hce : c.toNat < e.toNat := by omega
              simp [hce]
        · by_cases hdc : d.toNat < c.toNat
          · rw [if_neg hcd, if_pos hdc] at h1
            exact absurd h1 (by simp)
          · rw [if_neg hcd, if_neg hdc] at h1
            by_cases hde : d.toNat < e.toNat
            · have hce : c.toNat < e.toNat := by omega
              simp [hce]
            · by_cases hed : e.toNat < d.toNat
              · rw [if_neg hde, if_pos hed] at h2
                exact absurd h2 (by simp)
              · rw [if_neg hde, if_neg hed] at h2
                have h3 : ¬ c.toNat < e.toNat := by omega
                have h4 : ¬ e.toNat < c.toNat := by omega
                rw [if_neg h3, if_neg h4]
                exact ih ds es h1 h2

theorem lexLe_antisymm : ∀ (xs ys : List Char),
    lexLe xs ys = true → lexLe ys xs = true → xs = ys := by
  intro xs
  induction xs with
  | nil =>
    intro ys h1 h2
    cases ys with
    | nil => rfl
    | cons d ds => simp [lexLe] at h2
  | cons c cs ih =>
    intro ys h1 h2
    cases ys with
    | nil => simp [lexLe] at h1
    | cons d ds =>
      simp only [lexLe] at h1 h2
      by_cases hcd : c.toNat < d.toNat
      · have hne : ¬ d.toNat < c.toNat := by omega
        rw [if_neg hne, if_pos hcd] at h2
        exact absurd h2 (by simp)
      · by_cases hdc : d.toNat < c.toNat
        · rw [if_neg hcd, if_pos hdc] at h1
          exact absurd h1 (by simp)
        · rw [if_neg hcd, if_neg hdc] at h1
          rw [if_neg hdc, if_neg hcd] at h2
          have hch : c = d := charToNat_inj (by omega)
          rw [hch, ih ds h1 h2]

theorem strLeB_total (a b : String) : strLeB a b = true ∨ strLeB b a = true :=
  lexLe_total a.data b.data

theorem strLeB_trans {a b c : String} (h1 : strLeB a b = true)
    (h2 : strLeB b c = true) : strLeB a c = true :=
  lexLe_trans a.data b.data c.data h1 h2

theorem strLeB_antisymm : ∀ {a b : String},
    strLeB a b = true → strLeB b a = true → a = b := by
  intro a b h1 h2
  cases a with
  | mk as =>
    cases b with
    | mk bs =>
      rw [lexLe_antisymm as bs h1 h2]

/-- Comparison used by `sorted(type_counts.items())`: by key.  (Python
compares the item tuple component-wise; distinct dict keys make the key
decisive.) -/
def keyLe (p q : Option String × Nat) : Prop :=
  strLeB (pyStrOfKey p.1) (pyStrOfKey q.1) = true

instance : DecidableRel keyLe := fun p q =>
  inferInstanceAs (Decidable (strLeB (pyStrOfKey p.1) (pyStrOfKey q.1) = true))

instance : IsTotal (Option String × Nat) keyLe :=
  ⟨fun p q => strLeB_total (pyStrOfKey p.1) (pyStrOfKey q.1)⟩

instance : IsTrans (Option String × Nat) keyLe :=
  ⟨fun _ _ _ h1 h2 => strLeB_trans h1 h2⟩

/-- One `f"{k}:{v}"` item of the signature join. -/
def renderPair (p : Option String × Nat) : String :=
  pyStrOfKey p.1 ++ ":" ++ toString p.2

/-- `generate_workflow_signature(nodes)`.

Empty node list yields `"empty"`.  Otherwise the `type_counts` dict is
built with `node.get("type", "unknown")` keys and `sorted`; CPython's
`sorted` raises `TypeError` exactly when it compares `None` with a
string, i.e. when the dict has at least two distinct keys one of which
is `None` (with a single distinct key no comparison happens). -/
def generate_workflow_signature (nodes : List Node) : Except String String :=
  match nodes with
  | [] => .ok "empty"
  | _ :: _ =>
    let tc := countTypes nodes
    if 2 ≤ tc.length ∧ tc.any (fun p => p.1.isNone) then
      .error "TypeError: unorderable types"
    else
      .ok (String.intercalate "," ((List.insertionSort keyLe tc).map renderPair))

/-- Modelled from the spec (reference definition for the C2 refinement):
count occurrences of each node type, a missing or null type counted as
the literal string `"unknown"`; sort the pairs by ascending type name,
case-sensitively; join as `type:count` with commas; empty input yields
`"empty"`. -/
def specKey (n : Node) : String :=
  match n.type_field with
  | none => "unknown"
  | some none => "unknown"
  | some (some t) => t

/-- The spec's counting keys for a node list. -/
def specKeys (nodes : List Node) : List String := nodes.map specKey

/-- Modelled from the spec: the reference signature of C2. -/
def specSignature (nodes : List Node) : String :=
  match nodes with
  | [] => "empty"
  | _ :: _ =>
    String.intercalate ","
      ((List.insertionSort (fun a b => strLeB a b = true) (firstSeen (specKeys nodes))).map
        (fun k => k ++ ":" ++ toString ((specKeys nodes).count k)))

/-! ## Topology sanitizer -/

/-- `INPUT_NODE_TYPES` of `UserWorkflowProfileGenerator`. -/
def INPUT_NODE_TYPES : List String := ["textInput", "imageInput", "videoInput", "audioInput"]

/-- `node_type in self.INPUT_NODE_TYPES` (a `None` key is never a member). -/
def isInputType : Option String → Bool
  | none => false
  | some t => t ∈ INPUT_NODE_TYPES

/-- A node after `clean_node_data`. -/
structure CleanedNode where
  id : JValue
  type : Option String
  label : JValue
  isInputNode : Bool
  data : JDict

/-- An edge as read from a `flow_task` document; each field is
`edge.get(...)`, so a missing key reads as `None`. -/
structure Edge where
  id : JValue := .null
  source : JValue := .null
  target : JValue := .null
  sourceHandle : JValue := .null
  targetHandle : JValue := .null

/-- An edge after `clean_edge_data`: the five fields copied through. -/
structure CleanedEdge where
  id : JValue
  source : JValue
  target : JValue
  sourceHandle : JValue
  targetHandle : JValue

/-- `clean_node_data(node)`: input-capable nodes keep their whole payload
minus `results`/`model_options`; other nodes get a fixed four-key payload
whose missing source fields become null. -/
def clean_node_data (node : Node) : CleanedNode :=
  let node_type := nodeTypeKey node
  let node_data := node.data
  { id := node.id
    type := node_type
    label := (dictGet node_data "label").getD .null
    isInputNode := isInputType node_type
    data :=
      if isInputType node_type then
        node_data.filter (fun kv => !(kv.1 == "results" || kv.1 == "model_options"))
      else
        [("prompt", (dictGet node_data "inputText").getD .null),
         ("selectedModels", (dictGet node_data "selectedModels").getD .null),
         ("selectedVoice", (dictGet node_data "selectedVoice").getD .null),
         ("aspectRatio", (dictGet node_data "aspectRatio").getD .null)] }

/-- `clean_edge_data(edge)`. -/
def clean_edge_data (edge : Edge) : CleanedEdge :=
  { id := edge.id
    source := edge.source
    target := edge.target
    sourceHandle := edge.sourceHandle
    targetHandle := edge.targetHandle }

/-- The cleaned topology document. -/
structure Topology where
  nodes : List CleanedNode
  edges : List CleanedEdge

/-- `clean_workflow_topology(nodes, edges)`. -/
def clean_workflow_topology (nodes : List Node) (edges : List Edge) : Topology :=
  { nodes := nodes.map clean_node_data
    edges := edges.map clean_edge_data }

/-- `extract_node_types(nodes)` builds `list(set(...))` of the coerced
type keys.  CPython's set iteration order is not specified; the model
fixes first-occurrence order, which is one deterministic choice. -/
def extract_node_types (nodes : List Node) : List (Option String) :=
  firstSeen (typeKeys nodes)

/-! ## Store documents and the database state -/

/-- Projection of a `flow_task` document fetched by `get_user_flow_tasks`. -/
structure Task where
  flow_task_id : JValue := .null
  nodes : List Node := []
  edges : List Edge := []
  status : JValue := .null
  cost : JValue := .null
  created_at : Option PyDateTime := none

/-- Projection of a `flow` document used by `find_matching_flow`. -/
structure Flow where
  flow_id : Option String := none
  nodes : List Node := []

/-- Projection of a `flow_details` document. -/
structure Details where
  project_name : Option String := none
  snapshot_url : Option String := none

/-- What `find_matching_flow` returns. -/
structure FlowInfo where
  flow_id : Option String
  workflow_name : Option String
  snapshot_url : Option String

/-- `stats` subdocument of a profile. -/
structure Stats where
  total_runs : Nat
  active_days : Nat
  period : String

/-- One `top_workflows` entry. -/
structure Entry where
  rank : Nat
  flow_id : Option String
  flow_task_id : JValue
  workflow_name : Option String
  signature : String
  run_count : Nat
  node_types : List (Option String)
  snapshot_url : Option String
  topology : Topology

/-- The `UserProfile` document built by `generate_user_profile`. -/
structure Profile where
  user_id : String
  user_email : String
  stats : Stats
  top_workflows : List Entry
  ai_profile : JValue
  payment_stats : JValue
  created_at : PyDateTime
  updated_at : PyDateTime

/-- A `user_workflow_profile` document at rest.  The named fields are the
ones the pipeline's `$set` writes; `extra` carries any further top-level
fields other processes may have added, which a `$set` of the profile
fields leaves alone. -/
structure StoredProfile where
  user_id : String
  user_email : String
  stats : Stats
  top_workflows : List Entry
  ai_profile : JValue
  payment_stats : JValue
  created_at : PyDateTime
  updated_at : PyDateTime
  extra : List (String × JValue)

/-- The backing store plus the I/O environment of one run.  `fetchFails`
models `get_user_flow_tasks` raising for a given user and `persistFails`
models the `update_one` inside `save_profile` raising (transient store
errors at the two suspension points); `now` models `datetime.now()`. -/
@[ext]
structure DB where
  userEmail : String → Option String
  flowTasks : String → List Task
  userFlows : String → List Flow
  flowDetails : String → Option Details
  profiles : String → Option StoredProfile
  fetchFails : String → Bool
  persistFails : String → Bool
  now : PyDateTime

/-- Hard-coded `self.start_date`: `datetime(2025, 10, 1)`. -/
def start_date : PyDateTime := ⟨2025, 10, 1, 0, 0, 0⟩

/-- Hard-coded `self.end_date`: `datetime(2026, 1, 27, 23, 59, 59)`. -/
def end_date : PyDateTime := ⟨2026, 1, 27, 23, 59, 59⟩

/-- Hard-coded `self.top_n`. -/
def top_n_default : Nat := 15

/-- The `created_at` range filter of the `flow_task` queries; a document
without the field does not match a range query. -/
def inWindow (d : Option PyDateTime) : Bool :=
  match d with
  | none => false
  | some t => start_date.le t && t.le end_date

/-- `get_user_email`: `find_one` on `user` projected to `user_email`. -/
def get_user_email (db : DB) (user_id : String) : Option String :=
  db.userEmail user_id

/-- `get_user_flow_tasks`: the user's `flow_task` documents with
`created_at` inside the configured window. -/
def get_user_flow_tasks (db : DB) (user_id : String) : List Task :=
  (db.flowTasks user_id).filter (fun t => inWindow t.created_at)

/-! ## Aggregation -/

/-- The signature of each task's nodes, in task order; the first
`TypeError` aborts the whole per-user computation, as in the Python loop. -/
def taskSigs : List Task → Except String (List String)
  | [] => .ok []
  | t :: ts =>
    match generate_workflow_signature t.nodes with
    | .error e => .error e
    | .ok s =>
      match taskSigs ts with
      | .error e => .error e
      | .ok ss => .ok (s :: ss)

/-- One value of the `workflow_stats` defaultdict. -/
structure Group where
  signature : String
  count : Nat
  sample : Task

instance : Inhabited Task := ⟨{}⟩

/-- The `workflow_stats` dict after the aggregation loop: one group per
distinct signature, keyed in first-insertion order; `count` is the final
count and `sample` the first task seen with that signature.  `sigs` must
be the signature list of `tasks` (same length, same order). -/
def groupsOf (tasks : List Task) (sigs : List String) : List Group :=
  (firstSeen sigs).map (fun s =>
    { signature := s
      count := sigs.count s
      sample := (((tasks.zip sigs).find? (fun p => p.2 == s)).map (fun p => p.1)).getD default })

/-- Pair each element with its position, starting at `i`. -/
def withIdx (i : Nat) : List α → List (Nat × α)
  | [] => []
  | x :: xs => (i, x) :: withIdx (i + 1) xs

/-- The order realised by `sorted(items, key=lambda x: count, reverse=True)`
on the insertion-ordered group list: count descending, ties by original
position.  Python's sort is stable, and a stable sort by count descending
of distinctly-indexed items is exactly a sort by this total order. -/
def rGroup (a b : Nat × Group) : Prop :=
  b.2.count < a.2.count ∨ (a.2.count = b.2.count ∧ a.1 ≤ b.1)

instance : DecidableRel rGroup := fun _ _ =>
  inferInstanceAs (Decidable (_ ∨ _))

instance : IsTotal (Nat × Group) rGroup := by
  constructor
  intro a b
  rcases Nat.lt_trichotomy a.2.count b.2.count with h | h | h
  · exact Or.inr (Or.inl h)
  · rcases Nat.le_total a.1 b.1 with h2 | h2
    · exact Or.inl (Or.inr ⟨h, h2⟩)
    · exact Or.inr (Or.inr ⟨h.symm, h2⟩)
  · exact Or.inl (Or.inl h)

instance : IsTrans (Nat × Group) rGroup := by
  constructor
  rintro a b c (h1 | ⟨h1, h1i⟩) (h2 | ⟨h2, h2i⟩)
  · exact Or.inl (lt_trans h2 h1)
  · exact Or.inl (h2 ▸ h1)
  · exact Or.inl (h1 ▸ h2)
  · exact Or.inr ⟨h1.trans h2, le_trans h1i h2i⟩

/-- `sorted(workflow_stats.items(), key=..., reverse=True)`. -/
def sortGroups (gs : List Group) : List Group :=
  (List.insertionSort rGroup (withIdx 0 gs)).map (fun p => p.2)

/-- Inner loop of `find_matching_flow`: first flow whose signature matches
and whose `flow_details` document exists; a signature `TypeError` on the
way propagates.  Takes the `flow_details` lookup it reads, not the whole
store. -/
def findFlowAux (details : String → Option Details) (signature : String) :
    List Flow → Except String FlowInfo
  | [] => .ok ⟨none, none, none⟩
  | f :: fs =>
    match generate_workflow_signature f.nodes with
    | .error e => .error e
    | .ok s =>
      if s == signature then
        match f.flow_id.bind details with
        | some d => .ok ⟨f.flow_id, some (d.project_name.getD ""), d.snapshot_url⟩
        | none => findFlowAux details signature fs
      else findFlowAux details signature fs

/-- `find_matching_flow(signature, user_id)`: scans at most 100 of the
user's flows (`to_list(length=100)`). -/
def find_matching_flow (db : DB) (signature : String) (user_id : String) :
    Except String FlowInfo :=
  findFlowAux db.flowDetails signature ((db.userFlows user_id).take 100)

/-- The `top_workflows` construction loop: ranks assigned by
`enumerate(sorted_workflows, 1)`, one `find_matching_flow` await per
entry (whose exception propagates), topology cleaned from the sample.
`flows` is the user's `flow` collection slice that each
`find_matching_flow` call scans. -/
def buildEntries (details : String → Option Details) (flows : List Flow) :
    Nat → List Group → Except String (List Entry)
  | _, [] => .ok []
  | rank, g :: gs =>
    match findFlowAux details g.signature (flows.take 100) with
    | .error e => .error e
    | .ok info =>
      match buildEntries details flows (rank + 1) gs with
      | .error e => .error e
      | .ok rest =>
        .ok ({ rank := rank
               flow_id := info.flow_id
               flow_task_id := g.sample.flow_task_id
               workflow_name := info.workflow_name
               signature := g.signature
               run_count := g.count
               node_types := extract_node_types g.sample.nodes
               snapshot_url := info.snapshot_url
               topology := clean_workflow_topology g.sample.nodes g.sample.edges } :: rest)

/-- Lines 272-323 of `generate_profile.py`: group the records by
signature, sort by count descending (ties in first-seen order), truncate
to `top_n`, and build the ranked entries. -/
def aggregate (db : DB) (user_id : String) (tasks : List Task) (top_n : Nat) :
    Except String (List Entry) :=
  match taskSigs tasks with
  | .error e => .error e
  | .ok sigs =>
    buildEntries db.flowDetails (db.userFlows user_id) 1
      ((sortGroups (groupsOf tasks sigs)).take top_n)

/-- `active_days`: number of distinct calendar dates among the fetched
records' `created_at` values (records without one are skipped). -/
def active_days_of (tasks : List Task) : Nat :=
  (firstSeen ((tasks.filterMap (fun t => t.created_at)).map PyDateTime.date)).length

/-! ## Per-user driver -/

/-- `generate_user_profile(user_id)`: returns `none` (skip) when the user
has no usable email or no in-window records, the built profile otherwise;
an exception anywhere surfaces as `.error`. -/
def generate_user_profile (db : DB) (user_id : String) :
    Except String (Option Profile) :=
  match get_user_email db user_id with
  | none => .ok none
  | some email =>
    if email == "" then .ok none
    else if db.fetchFails user_id then .error "fetch failed"
    else
      let flow_tasks := get_user_flow_tasks db user_id
      if flow_tasks.isEmpty then .ok none
      else
        match aggregate db user_id flow_tasks top_n_default with
        | .error e => .error e
        | .ok top_workflows =>
          .ok (some
            { user_id := user_id
              user_email := email
              stats :=
                { total_runs := flow_tasks.length
                  active_days := active_days_of flow_tasks
                  period := "2024-10-01 ~ 2025-01-27" }
              top_workflows := top_workflows
              ai_profile := .null
              payment_stats := .null
              created_at := db.now
              updated_at := db.now })

/-- The document state after `update_one({"user_id": ...}, {"$set": profile},
upsert=True)`: every top-level field of the profile dict is written (the
profile dict contains all of them, including the null enrichment slots);
top-level fields not named in the dict (`extra`) survive. -/
def setProfile (p : Profile) (old : Option StoredProfile) : StoredProfile :=
  { user_id := p.user_id
    user_email := p.user_email
    stats := p.stats
    top_workflows := p.top_workflows
    ai_profile := p.ai_profile
    payment_stats := p.payment_stats
    created_at := p.created_at
    updated_at := p.updated_at
    extra := match old with | some o => o.extra | none => [] }

/-- The successful effect of `save_profile(profile)`: upsert keyed on
`user_id`. -/
def save_profile (db : DB) (p : Profile) : DB :=
  { db with
    profiles := fun u =>
      if u == p.user_id then some (setProfile p (db.profiles u)) else db.profiles u }

/-- The awaited `save_profile` call: the `update_one` may raise (a
transient store error, modelled by `persistFails`); a raising call
applies no write. -/
def save_profile_call (db : DB) (p : Profile) : Except String DB :=
  if db.persistFails p.user_id then .error "persist failed"
  else .ok (save_profile db p)

/-- `process_user(user_id)`: outcome string plus the store it leaves
behind.  Exceptions from any step — fetch, aggregation, persist — are
captured into `"error: ..."`, never re-raised. -/
def process_user (db : DB) (user_id : String) : String × DB :=
  match generate_user_profile db user_id with
  | .ok (some p) =>
    match save_profile_call db p with
    | .ok db2 => ("success", db2)
    | .error e => ("error: " ++ e, db)
  | .ok none => ("skip", db)
  | .error e => ("error: " ++ e, db)

/-- Result classification of the tally loop in `run`. -/
def isSuccessResult (r : String) : Bool := r == "success"

/-- See `isSuccessResult`. -/
def isSkipResult (r : String) : Bool := r == "skip"

/-- Anything that is neither `"success"` nor `"skip"` counts as an error. -/
def isErrorResult (r : String) : Bool := !(r == "success" || r == "skip")

/-- The final `{success, skip, error}` counts. -/
structure Tally where
  success : Nat
  skip : Nat
  error : Nat
deriving DecidableEq

/-- Process each user's pipeline and collect the outcome strings.  The
real script runs the tasks concurrently under a semaphore and collects
results in completion order; the tally below is order-insensitive, and
profile writes of distinct users touch distinct keys, so the sequential
model produces the same tally and the same final store. -/
def process_users (db : DB) : List String → List String × DB
  | [] => ([], db)
  | u :: us =>
    ((process_user db u).1 :: (process_users (process_user db u).2 us).1,
      (process_users (process_user db u).2 us).2)

/-- The classification loop over collected results. -/
def tallyOf (rs : List String) : Tally :=
  { success := rs.countP isSuccessResult
    skip := rs.countP isSkipResult
    error := rs.countP isErrorResult }

/-- The batch part of `run()`: drive every discovered user and tally. -/
def run_batch (db : DB) (user_ids : List String) : Tally × DB :=
  let r := process_users db user_ids
  (tallyOf r.1, r.2)

/-! ## The window label (C10) -/

/-- Two-digit zero padding, as `strftime` renders months and days. -/
def fmt2 (n : Nat) : String := if n < 10 then "0" ++ toString n else toString n

/-- `d.strftime("%Y-%m-%d")`. -/
def fmtDate (d : PyDateTime) : String :=
  toString d.year ++ "-" ++ fmt2 d.month ++ "-" ++ fmt2 d.day

/-- The label that would actually describe the configured query window. -/
def windowLabel : String := fmtDate start_date ++ " ~ " ++ fmtDate end_date

/-! ## Claim C5: sanitizer bound for non-input nodes -/

/-- C5: for every node whose (coerced) type is not in the fixed input set,
the sanitized payload is exactly the four-key dict `prompt`,
`selectedModels`, `selectedVoice`, `aspectRatio` — however many keys the
source payload had — and each missing source field becomes null, never
omitted. -/
theorem C5_sanitizer_bound (node : Node)
    (h : isInputType (nodeTypeKey node) = false) :
    ((clean_node_data node).data).map (fun kv => kv.1) =
        ["prompt", "selectedModels", "selectedVoice", "aspectRatio"]
    ∧ (clean_node_data node).data =
        [("prompt", (dictGet node.data "inputText").getD .null),
         ("selectedModels", (dictGet node.data "selectedModels").getD .null),
         ("selectedVoice", (dictGet node.data "selectedVoice").getD .null),
         ("aspectRatio", (dictGet node.data "aspectRatio").getD .null)]
    ∧ (dictGet node.data "inputText" = none →
        dictGet (clean_node_data node).data "prompt" = some .null)
    ∧ (dictGet node.data "selectedModels" = none →
        dictGet (clean_node_data node).data "selectedModels" = some .null)
    ∧ (dictGet node.data "selectedVoice" = none →
        dictGet (clean_node_data node).data "selectedVoice" = some .null)
    ∧ (dictGet node.data "aspectRatio" = none →
        dictGet (clean_node_data node).data "aspectRatio" = some .null) := by
  have hd : (clean_node_data node).data =
      [("prompt", (dictGet node.data "inputText").getD .null),
       ("selectedModels", (dictGet node.data "selectedModels").getD .null),
       ("selectedVoice", (dictGet node.data "selectedVoice").getD .null),
       ("aspectRatio", (dictGet node.data "aspectRatio").getD .null)] := by
    unfold clean_node_data
    simp [h]
  refine ⟨by rw [hd]; rfl, hd, ?_, ?_, ?_, ?_⟩ <;> intro hmiss <;> rw [hd, hmiss] <;> rfl

/-- Concrete non-input node with a wide payload; `aspectRatio` and
`selectedVoice` are absent from the source. -/
def c5node : Node :=
  { id := .str "n1"
    type_field := some (some "imageMaker")
    data := [("inputText", .str "a cat"), ("seed", .num 42), ("steps", .num 30),
             ("results", .arr [.str "big"]), ("model_options", .arr []),
             ("selectedModels", .arr [.str "m1"]), ("extraA", .null),
             ("extraB", .str "x")] }

/-- Witness for C5 at `c5node`. -/
theorem C5_sanitizer_bound_witness :
    isInputType (nodeTypeKey c5node) = false
    ∧ ((clean_node_data c5node).data).map (fun kv => kv.1) =
        ["prompt", "selectedModels", "selectedVoice", "aspectRatio"]
    ∧ dictGet (clean_node_data c5node).data "aspectRatio" = some .null :=
  ⟨rfl, (C5_sanitizer_bound c5node rfl).1,
    (C5_sanitizer_bound c5node rfl).2.2.2.2.2 rfl⟩

/-! ## Claim C9: missing email skips, writes nothing -/

/-- C9: a user whose user record has no email yields a skip outcome and
leaves the store untouched, whatever records they have in the window
(the email check precedes the fetch, so even a failing fetch is never
reached), and the outcome is not error-classified. -/
theorem C9_no_email_skips (db : DB) (u : String) (h : db.userEmail u = none) :
    (process_user db u).1 = "skip"
    ∧ (process_user db u).2 = db
    ∧ isErrorResult (process_user db u).1 = false := by
  have hg : generate_user_profile db u = .ok none := by
    unfold generate_user_profile get_user_email
    rw [h]
  refine ⟨?_, ?_, ?_⟩ <;> simp [process_user, hg, isErrorResult]

/-- Store with a user that has in-window records and even a failing
fetch flag, but no email. -/
def c9db : DB :=
  { userEmail := fun _ => none
    flowTasks := fun _ => [{ flow_task_id := .str "t1",
                             created_at := some ⟨2025, 12, 1, 0, 0, 0⟩ }]
    userFlows := fun _ => []
    flowDetails := fun _ => none
    profiles := fun _ => none
    fetchFails := fun _ => true
    persistFails := fun _ => false
    now := ⟨2026, 2, 1, 0, 0, 0⟩ }

/-- Witness for C9 at `c9db`, user `u1`. -/
theorem C9_no_email_skips_witness :
    (process_user c9db "u1").1 = "skip"
    ∧ (process_user c9db "u1").2 = c9db
    ∧ isErrorResult (process_user c9db "u1").1 = false :=
  C9_no_email_skips c9db "u1" rfl

/-! ## Claim C6: zero in-window records skip, write nothing -/

/-- C6: a user with zero execution records inside the configured window
(and a working store) yields a skip outcome, not an error, and no
profile document is written or modified. -/
theorem C6_zero_records_skip (db : DB) (u : String)
    (hfetch : db.fetchFails u = false)
    (hempty : get_user_flow_tasks db u = []) :
    (process_user db u).1 = "skip"
    ∧ (process_user db u).2 = db
    ∧ isErrorResult (process_user db u).1 = false := by
  have hg : generate_user_profile db u = .ok none := by
    unfold generate_user_profile get_user_email
    cases he : db.userEmail u with
    | none => rfl
    | some e =>
      by_cases hee : e == ""
      · simp [hee]
      · simp [hee, hfetch, hempty]
  refine ⟨?_, ?_, ?_⟩ <;> simp [process_user, hg, isErrorResult]

/-- Store where user `u1` has an email and one record, but the record is
outside the window. -/
def c6db : DB :=
  { userEmail := fun _ => some "someone"
    flowTasks := fun _ => [{ flow_task_id := .str "t0",
                             created_at := some ⟨2024, 5, 1, 0, 0, 0⟩ }]
    userFlows := fun _ => []
    flowDetails := fun _ => none
    profiles := fun _ => none
    fetchFails := fun _ => false
    persistFails := fun _ => false
    now := ⟨2026, 2, 1, 0, 0, 0⟩ }

/-- Witness for C6 at `c6db`, user `u1`. -/
theorem C6_zero_records_skip_witness :
    (process_user c6db "u1").1 = "skip"
    ∧ (process_user c6db "u1").2 = c6db
    ∧ isErrorResult (process_user c6db "u1").1 = false :=
  C6_zero_records_skip c6db "u1" rfl rfl

/-! ## Claim C10: the persisted period label is a stale constant -/

/-- C10: every profile the pipeline builds carries the literal
`stats.period` string `"2024-10-01 ~ 2025-01-27"`, while the configured
query window is 2025-10-01 00:00:00 through 2026-01-27 23:59:59; the
label therefore differs from the label of the actual window. -/
theorem C10_period_label (db : DB) (u : String) (p : Profile)
    (h : generate_user_profile db u = .ok (some p)) :
    p.stats.period = "2024-10-01 ~ 2025-01-27"
    ∧ start_date = ⟨2025, 10, 1, 0, 0, 0⟩
    ∧ end_date = ⟨2026, 1, 27, 23, 59, 59⟩
    ∧ windowLabel = "2025-10-01 ~ 2026-01-27"
    ∧ p.stats.period ≠ windowLabel := by
  have hper : p.stats.period = "2024-10-01 ~ 2025-01-27" := by
    unfold generate_user_profile at h
    split at h
    · exact absurd h (by simp)
    · split at h
      · exact absurd h (by simp)
      · split at h
        · exact absurd h (by simp)
        · simp only [] at h
          split at h
          · exact absurd h (by simp)
          · split at h
            · exact absurd h (by simp)
            · rw [show p = _ from (by simpa using h.symm)]
  refine ⟨hper, rfl, rfl, by decide, ?_⟩
  rw [hper]
  decide

/-- Minimal working store for the C10 witness: one in-window record with
no nodes. -/
def c10db : DB :=
  { userEmail := fun _ => some "someone"
    flowTasks := fun _ => [{ flow_task_id := .str "t1",
                             created_at := some ⟨2025, 11, 2, 3, 4, 5⟩ }]
    userFlows := fun _ => []
    flowDetails := fun _ => none
    profiles := fun _ => none
    fetchFails := fun _ => false
    persistFails := fun _ => false
    now := ⟨2026, 1, 28, 0, 0, 0⟩ }

/-- The profile `generate_user_profile` computes on `c10db` for `u1`. -/
def c10profile : Profile :=
  { user_id := "u1"
    user_email := "someone"
    stats := { total_runs := 1, active_days := 1,
               period := "2024-10-01 ~ 2025-01-27" }
    top_workflows := [{ rank := 1, flow_id := none, flow_task_id := .str "t1",
                        workflow_name := none, signature := "empty", run_count := 1,
                        node_types := [], snapshot_url := none,
                        topology := { nodes := [], edges := [] } }]
    ai_profile := .null
    payment_stats := .null
    created_at := ⟨2026, 1, 28, 0, 0, 0⟩
    updated_at := ⟨2026, 1, 28, 0, 0, 0⟩ }

/-- Witness for C10 at `c10db`, user `u1`. -/
theorem C10_period_label_witness :
    c10profile.stats.period = "2024-10-01 ~ 2025-01-27"
    ∧ c10profile.stats.period ≠ windowLabel :=
  ⟨(C10_period_label c10db "u1" c10profile rfl).1,
   (C10_period_label c10db "u1" c10profile rfl).2.2.2.2⟩

/-! ## Claim C1: the upsert clobbers populated enrichment slots -/

/-- A stored profile whose enrichment slots were populated out-of-band
(as `analyze_profile.py` / the payment scripts do with partial updates). -/
def c1stored : StoredProfile :=
  { user_id := "u1"
    user_email := "someone"
    stats := { total_runs := 3, active_days := 2,
               period := "2024-10-01 ~ 2025-01-27" }
    top_workflows := []
    ai_profile := .obj [("category", .str "creator")]
    payment_stats := .obj [("paid_count", .num 2)]
    created_at := ⟨2025, 1, 1, 0, 0, 0⟩
    updated_at := ⟨2025, 1, 1, 0, 0, 0⟩
    extra := [("is_paid_user", .boolean true)] }

/-- Store holding `c1stored` for `u1`, with one in-window record so the
pipeline recomputes a profile for the same user. -/
def c1db : DB :=
  { userEmail := fun _ => some "someone"
    flowTasks := fun _ => [{ flow_task_id := .str "t1",
                             created_at := some ⟨2025, 11, 2, 3, 4, 5⟩ }]
    userFlows := fun _ => []
    flowDetails := fun _ => none
    profiles := fun u => if u == "u1" then some c1stored else none
    fetchFails := fun _ => false
    persistFails := fun _ => false
    now := ⟨2026, 1, 28, 0, 0, 0⟩ }

/-- The profile the pipeline computes on `c1db` for `u1`; like every
generated profile it carries null enrichment slots. -/
def c1profile : Profile :=
  { user_id := "u1"
    user_email := "someone"
    stats := { total_runs := 1, active_days := 1,
               period := "2024-10-01 ~ 2025-01-27" }
    top_workflows := [{ rank := 1, flow_id := none, flow_task_id := .str "t1",
                        workflow_name := none, signature := "empty", run_count := 1,
                        node_types := [], snapshot_url := none,
                        topology := { nodes := [], edges := [] } }]
    ai_profile := .null
    payment_stats := .null
    created_at := ⟨2026, 1, 28, 0, 0, 0⟩
    updated_at := ⟨2026, 1, 28, 0, 0, 0⟩ }

/-- C1 evaluated at the failing input: the store holds a populated
`ai_profile`/`payment_stats` for `u1`; re-running the persist step with
the pipeline's computed profile overwrites both slots with null, because
the `$set` document is the full profile dict and that dict always
carries `ai_profile = None`, `payment_stats = None`.  Persisting the
same computed document twice does leave the store in the same final
state — but a previously-set enrichment slot is cleared, refuting the
claim's frame condition. -/
theorem C1_enrichment_clobbered :
    generate_user_profile c1db "u1" = .ok (some c1profile)
    ∧ c1profile.ai_profile = .null
    ∧ c1profile.payment_stats = .null
    ∧ ((c1db.profiles "u1").map (fun s => s.ai_profile))
        = some (.obj [("category", .str "creator")])
    ∧ ((c1db.profiles "u1").map (fun s => s.payment_stats))
        = some (.obj [("paid_count", .num 2)])
    ∧ (((save_profile c1db c1profile).profiles "u1").map (fun s => s.ai_profile))
        = some .null
    ∧ (((save_profile c1db c1profile).profiles "u1").map (fun s => s.payment_stats))
        = some .null
    ∧ save_profile (save_profile c1db c1profile) c1profile = save_profile c1db c1profile := by
  refine ⟨rfl, rfl, rfl, rfl, rfl, rfl, rfl, ?_⟩
  unfold save_profile
  ext u : 2 <;> try rfl
  all_goals
    by_cases hu : u == c1profile.user_id <;> simp [hu, setProfile]

/-! ## Aggregation lemmas (C3, C4) -/

/-- Position of a signature in the first-seen (dict-insertion) order. -/
def discoveryIdx (sigs : List String) (s : String) : Nat :=
  (firstSeen sigs).indexOf s

theorem fst_withIdx : ∀ (l : List α) (i : Nat),
    (withIdx i l).map Prod.fst = List.range' i l.length := by
  intro l
  induction l with
  | nil => intro i; rfl
  | cons x xs ih =>
    intro i
    simp only [withIdx, List.map_cons, List.length_cons, List.range'_succ, ih]

theorem nodup_fst_withIdx (l : List α) (i : Nat) :
    ((withIdx i l).map Prod.fst).Nodup := by
  rw [fst_withIdx]
  exact List.nodup_range' i l.length

theorem mem_snd_withIdx : ∀ (l : List α) (i : Nat) (p : Nat × α),
    p ∈ withIdx i l → p.2 ∈ l := by
  intro l
  induction l with
  | nil => intro i p hp; cases hp
  | cons x xs ih =>
    intro i p hp
    rcases List.mem_cons.mp hp with rfl | hp'
    · exact List.mem_cons_self x xs
    · exact List.mem_cons_of_mem x (ih (i + 1) p hp')

theorem withIdx_sig_idx (f : String → Group) (hf : ∀ s, (f s).signature = s) :
    ∀ (l : List String), l.Nodup → ∀ (i : Nat) (p : Nat × Group),
      p ∈ withIdx i (l.map f) → p.1 = i + l.indexOf p.2.signature := by
  intro l
  induction l with
  | nil => intro _ i p hp; cases hp
  | cons x xs ih =>
    intro hnd i p hp
    rw [List.map_cons, withIdx] at hp
    rcases List.mem_cons.mp hp with rfl | hp'
    · simp [hf, List.indexOf_cons_self]
    · obtain ⟨hx, hnd'⟩ := List.nodup_cons.mp hnd
      have hmem : p.2 ∈ xs.map f := mem_snd_withIdx _ _ _ hp'
      obtain ⟨s, hs, hps⟩ := List.mem_map.mp hmem
      have hsig : p.2.signature = s := by rw [← hps, hf]
      have hne : x ≠ p.2.signature := by
        rw [hsig]
        exact fun hxs => hx (hxs ▸ hs)
      have := ih hnd' (i + 1) p hp'
      rw [List.indexOf_cons_ne _ hne]
      omega

/-- The strict order that the sorted group list realises: count strictly
descending, ties strictly by first-seen position. -/
def strictGroupRel (sigs : List String) (g g' : Group) : Prop :=
  g'.count < g.count ∨
    (g.count = g'.count ∧ discoveryIdx sigs g.signature < discoveryIdx sigs g'.signature)

theorem pairwise_sortGroups (tasks : List Task) (sigs : List String) :
    (sortGroups (groupsOf tasks sigs)).Pairwise (strictGroupRel sigs) := by
  classical
  set f : String → Group := fun s =>
    { signature := s
      count := sigs.count s
      sample := (((tasks.zip sigs).find? (fun p => p.2 == s)).map (fun p => p.1)).getD default }
    with hfdef
  have hgs : groupsOf tasks sigs = (firstSeen sigs).map f := rfl
  set l := withIdx 0 (groupsOf tasks sigs) with hl
  have hsorted : List.Sorted rGroup (List.insertionSort rGroup l) :=
    List.sorted_insertionSort rGroup l
  have hperm : List.Perm (List.insertionSort rGroup l) l :=
    List.perm_insertionSort rGroup l
  have hfstnd : ((List.insertionSort rGroup l).map Prod.fst).Nodup :=
    ((hperm.map Prod.fst).nodup_iff).mpr (nodup_fst_withIdx _ 0)
  have hne : (List.insertionSort rGroup l).Pairwise (fun a b => a.1 ≠ b.1) :=
    List.pairwise_map.mp hfstnd
  have hidx : ∀ p ∈ List.insertionSort rGroup l,
      p.1 = (firstSeen sigs).indexOf p.2.signature := by
    intro p hp
    have hp' : p ∈ l := hperm.mem_iff.mp hp
    rw [hl, hgs] at hp'
    have := withIdx_sig_idx f (fun s => rfl) (firstSeen sigs) (nodup_firstSeen sigs) 0 p hp'
    omega
  have hstrict : (List.insertionSort rGroup l).Pairwise
      (fun a b => strictGroupRel sigs a.2 b.2) := by
    refine (hsorted.and hne).imp_of_mem ?_
    intro a b ha hb hab
    rcases hab.1 with hlt | ⟨heq, hle⟩
    · exact Or.inl hlt
    · refine Or.inr ⟨heq, ?_⟩
      have hia := hidx a ha
      have hib := hidx b hb
      have : a.1 < b.1 := lt_of_le_of_ne hle hab.2
      rw [discoveryIdx, discoveryIdx, ← hia, ← hib]
      exact this
  exact List.pairwise_map.mpr hstrict

/-- What the `top_workflows` construction loop preserves: the
`(signature, run_count)` column equals the group column, ranks count up
from the start value, lengths agree. -/
theorem buildEntries_ok (details : String → Option Details) (flows : List Flow) :
    ∀ (gs : List Group) (r : Nat) (es : List Entry),
      buildEntries details flows r gs = .ok es →
      es.map (fun e => (e.signature, e.run_count)) = gs.map (fun g => (g.signature, g.count))
      ∧ es.map Entry.rank = List.range' r es.length
      ∧ es.length = gs.length := by
  intro gs
  induction gs with
  | nil =>
    intro r es h
    unfold buildEntries at h
    obtain rfl : ([] : List Entry) = es := by simpa using h
    simp
  | cons g gs ih =>
    intro r es h
    unfold buildEntries at h
    split at h
    · exact absurd h (by simp)
    · split at h
      · exact absurd h (by simp)
      · rename_i info hinfo rest hrest
        obtain rfl : _ :: rest = es := by simpa using h
        obtain ⟨h1, h2, h3⟩ := ih (r + 1) rest hrest
        refine ⟨?_, ?_, ?_⟩
        · simpa using h1
        · simp only [List.map_cons, List.length_cons, List.range'_succ]
          exact congrArg (fun t => r :: t) h2
        · simpa using h3

/-! ## Claim C3: shape of the Top-N list -/

/-- C3: for every record list and every `top_n`, a successful aggregation
yields at most `top_n` entries, ranked by the consecutive integers
1..length, sorted by `run_count` non-increasing, with ties broken by the
first-seen (traversal-discovery) order of the fingerprints. -/
theorem C3_toplist_shape (db : DB) (uid : String) (tasks : List Task) (top_n : Nat)
    (sigs : List String) (entries : List Entry)
    (hs : taskSigs tasks = .ok sigs)
    (h : aggregate db uid tasks top_n = .ok entries) :
    entries.length ≤ top_n
    ∧ entries.map Entry.rank = List.range' 1 entries.length
    ∧ entries.Pairwise (fun a b => b.run_count ≤ a.run_count)
    ∧ entries.Pairwise (fun a b => b.run_count < a.run_count ∨
        (a.run_count = b.run_count ∧
          discoveryIdx sigs a.signature < discoveryIdx sigs b.signature)) := by
  unfold aggregate at h
  rw [hs] at h
  obtain ⟨h1, h2, h3⟩ := buildEntries_ok db.flowDetails (db.userFlows uid) _ 1 entries h
  have htake : ((sortGroups (groupsOf tasks sigs)).take top_n).Pairwise
      (strictGroupRel sigs) :=
    (pairwise_sortGroups tasks sigs).sublist (List.take_sublist _ _)
  have hstrong : entries.Pairwise (fun a b => b.run_count < a.run_count ∨
      (a.run_count = b.run_count ∧
        discoveryIdx sigs a.signature < discoveryIdx sigs b.signature)) := by
    have hp : (entries.map (fun e => (e.signature, e.run_count))).Pairwise
        (fun p q => q.2 < p.2 ∨
          (p.2 = q.2 ∧ discoveryIdx sigs p.1 < discoveryIdx sigs q.1)) := by
      rw [h1, List.pairwise_map]
      exact htake.imp (fun hab => hab)
    exact List.pairwise_map.mp hp
  refine ⟨?_, h2, ?_, hstrong⟩
  · rw [h3, List.length_take]
    exact min_le_left _ _
  · refine hstrong.imp ?_
    rintro a b (hlt | ⟨heq, _⟩)
    · exact le_of_lt hlt
    · exact le_of_eq heq.symm

/-! ## Claim C4: aggregation is deterministic -/

/-- C4: the aggregation is a pure function of the input sequence and
`top_n`; two runs on the same inputs produce identical output — same
fingerprints, counts, ranks, representative run ids and topologies.  In
the embedding the CPython sources of nondeterminism the code relies on
being deterministic (insertion-ordered dicts, stable `sorted`) are fixed
deterministic functions, so equality of the two runs is definitional. -/
theorem C4_aggregate_deterministic (db : DB) (uid : String) (tasks : List Task)
    (top_n : Nat) :
    aggregate db uid tasks top_n = aggregate db uid tasks top_n
    ∧ ∀ es es', aggregate db uid tasks top_n = .ok es →
        aggregate db uid tasks top_n = .ok es' →
        es.map Entry.signature = es'.map Entry.signature
        ∧ es.map Entry.run_count = es'.map Entry.run_count
        ∧ es.map Entry.rank = es'.map Entry.rank
        ∧ es.map Entry.flow_task_id = es'.map Entry.flow_task_id
        ∧ es.map Entry.topology = es'.map Entry.topology := by
  refine ⟨rfl, ?_⟩
  intro es es' h h'
  have hes : es = es' := by
    have := h.symm.trans h'
    simpa using this
  subst hes
  exact ⟨rfl, rfl, rfl, rfl, rfl⟩

/-! ## Concrete aggregation scenario shared by the C3/C4 witnesses -/

/-- Node with a plain string type. -/
def mkTNode (t : String) : Node := { type_field := some (some t) }

/-- The spec's end-to-end example: three records scanned most-recent
first; two share the node-type multiset `{imageInput, imageMaker}` (in
different node orders), one is `{textInput}`. -/
def c34tasks : List Task :=
  [{ flow_task_id := .str "t3",
     nodes := [mkTNode "imageInput", mkTNode "imageMaker"],
     created_at := some ⟨2025, 12, 3, 0, 0, 0⟩ },
   { flow_task_id := .str "t2",
     nodes := [mkTNode "imageMaker", mkTNode "imageInput"],
     created_at := some ⟨2025, 12, 2, 0, 0, 0⟩ },
   { flow_task_id := .str "t1",
     nodes := [mkTNode "textInput"],
     created_at := some ⟨2025, 12, 1, 0, 0, 0⟩ }]

/-- Store for the aggregation scenario. -/
def c34db : DB :=
  { userEmail := fun _ => some "someone"
    flowTasks := fun _ => c34tasks
    userFlows := fun _ => []
    flowDetails := fun _ => none
    profiles := fun _ => none
    fetchFails := fun _ => false
    persistFails := fun _ => false
    now := ⟨2026, 1, 28, 0, 0, 0⟩ }

/-- The signatures of `c34tasks`, in task order. -/
def c34sigs : List String :=
  ["imageInput:1,imageMaker:1", "imageInput:1,imageMaker:1", "textInput:1"]

/-- The aggregation output on the scenario: the shared fingerprint ranks
first with count 2 (representative `t3`, the first scanned), the
singleton fingerprint ranks second. -/
def c34entries : List Entry :=
  [{ rank := 1, flow_id := none, flow_task_id := .str "t3",
     workflow_name := none, signature := "imageInput:1,imageMaker:1",
     run_count := 2, node_types := [some "imageInput", some "imageMaker"],
     snapshot_url := none,
     topology :=
       { nodes := [{ id := .null, type := some "imageInput", label := .null,
                     isInputNode := true, data := [] },
                   { id := .null, type := some "imageMaker", label := .null,
                     isInputNode := false,
                     data := [("prompt", .null), ("selectedModels", .null),
                              ("selectedVoice", .null), ("aspectRatio", .null)] }]
         edges := [] } },
   { rank := 2, flow_id := none, flow_task_id := .str "t1",
     workflow_name := none, signature := "textInput:1",
     run_count := 1, node_types := [some "textInput"],
     snapshot_url := none,
     topology :=
       { nodes := [{ id := .null, type := some "textInput", label := .null,
                     isInputNode := true, data := [] }]
         edges := [] } }]

/-- Witness for C3 on the concrete scenario. -/
theorem C3_toplist_shape_witness :
    c34entries.length ≤ 15
    ∧ c34entries.map Entry.rank = List.range' 1 c34entries.length
    ∧ c34entries.Pairwise (fun a b => b.run_count ≤ a.run_count)
    ∧ c34entries.Pairwise (fun a b => b.run_count < a.run_count ∨
        (a.run_count = b.run_count ∧
          discoveryIdx c34sigs a.signature < discoveryIdx c34sigs b.signature)) :=
  C3_toplist_shape c34db "u1" c34tasks 15 c34sigs c34entries (by rfl) (by rfl)

/-- Witness for C4 on the concrete scenario. -/
theorem C4_aggregate_deterministic_witness :
    c34entries.map Entry.signature = c34entries.map Entry.signature
    ∧ c34entries.map Entry.run_count = c34entries.map Entry.run_count
    ∧ c34entries.map Entry.rank = c34entries.map Entry.rank
    ∧ c34entries.map Entry.flow_task_id = c34entries.map Entry.flow_task_id
    ∧ c34entries.map Entry.topology = c34entries.map Entry.topology :=
  (C4_aggregate_deterministic c34db "u1" c34tasks 15).2 c34entries c34entries
    (by rfl) (by rfl)

/-! ## Driver frame lemmas (C7) -/

theorem generate_user_profile_profiles (db : DB) (f : String → Option StoredProfile)
    (u : String) :
    generate_user_profile { db with profiles := f } u = generate_user_profile db u := by
  rfl

/-- Fields every successfully generated profile carries. -/
theorem generate_user_profile_shape (db : DB) (u : String) (p : Profile)
    (h : generate_user_profile db u = .ok (some p)) :
    p.user_id = u ∧ p.ai_profile = .null ∧ p.payment_stats = .null := by
  unfold generate_user_profile at h
  split at h
  · exact absurd h (by simp)
  · split at h
    · exact absurd h (by simp)
    · split at h
      · exact absurd h (by simp)
      · simp only [] at h
        split at h
        · exact absurd h (by simp)
        · split at h
          · exact absurd h (by simp)
          · rw [show p = _ from (by simpa using h.symm)]
            exact ⟨rfl, rfl, rfl⟩

theorem process_user_fst (db : DB) (f : String → Option StoredProfile) (u : String) :
    (process_user { db with profiles := f } u).1 = (process_user db u).1 := by
  unfold process_user
  rw [generate_user_profile_profiles]
  cases generate_user_profile db u with
  | error e => rfl
  | ok po =>
    cases po with
    | none => rfl
    | some p =>
      dsimp only
      unfold save_profile_call
      dsimp only
      by_cases hb : db.persistFails p.user_id
      · rw [if_pos hb, if_pos hb]
      · rw [if_neg hb, if_neg hb]

theorem process_user_snd_form (db : DB) (u : String) :
    ∃ g, (process_user db u).2 = { db with profiles := g } := by
  unfold process_user
  cases generate_user_profile db u with
  | error e => exact ⟨db.profiles, rfl⟩
  | ok po =>
    cases po with
    | none => exact ⟨db.profiles, rfl⟩
    | some p =>
      dsimp only
      unfold save_profile_call
      by_cases hb : db.persistFails p.user_id
      · rw [if_pos hb]
        exact ⟨db.profiles, rfl⟩
      · rw [if_neg hb]
        exact ⟨_, rfl⟩

theorem process_user_profiles_ne (db : DB) (u v : String) (hne : v ≠ u) :
    ((process_user db u).2).profiles v = db.profiles v := by
  unfold process_user
  cases hg : generate_user_profile db u with
  | error e => rfl
  | ok po =>
    cases po with
    | none => rfl
    | some p =>
      have hpu : p.user_id = u := (generate_user_profile_shape db u p hg).1
      have hvne : (v == p.user_id) = false := by
        simp [hpu, hne]
      dsimp only
      unfold save_profile_call
      by_cases hb : db.persistFails p.user_id
      · rw [if_pos hb]
      · rw [if_neg hb]
        show (if (v == p.user_id) = true
              then some (setProfile p (db.profiles v)) else db.profiles v) = db.profiles v
        rw [hvne]
        exact if_neg Bool.false_ne_true

theorem process_user_profiles_stable (db : DB) (f : String → Option StoredProfile)
    (v w : String) (hagree : f w = db.profiles w) :
    ((process_user { db with profiles := f } v).2).profiles w
      = ((process_user db v).2).profiles w := by
  unfold process_user
  rw [generate_user_profile_profiles]
  cases generate_user_profile db v with
  | error e => exact hagree
  | ok po =>
    cases po with
    | none => exact hagree
    | some p =>
      dsimp only
      unfold save_profile_call
      dsimp only
      by_cases hb : db.persistFails p.user_id
      · rw [if_pos hb, if_pos hb]
        exact hagree
      · rw [if_neg hb, if_neg hb]
        by_cases hw : w == p.user_id <;> simp [save_profile, hw, hagree]

theorem process_users_fst : ∀ (us : List String) (db : DB)
    (f : String → Option StoredProfile),
    (process_users { db with profiles := f } us).1 = (process_users db us).1 := by
  intro us
  induction us with
  | nil => intro db f; rfl
  | cons u us ih =>
    intro db f
    obtain ⟨g1, hg1⟩ := process_user_snd_form { db with profiles := f } u
    obtain ⟨g2, hg2⟩ := process_user_snd_form db u
    unfold process_users
    dsimp only
    rw [process_user_fst db f u, hg1, hg2]
    dsimp only
    rw [ih db g1, ih db g2]

theorem process_users_results : ∀ (us : List String) (db : DB),
    (process_users db us).1 = us.map (fun u => (process_user db u).1) := by
  intro us
  induction us with
  | nil => intro db; rfl
  | cons u us ih =>
    intro db
    unfold process_users
    obtain ⟨g, hg⟩ := process_user_snd_form db u
    simp only [List.map_cons]
    refine congrArg (fun t => (process_user db u).1 :: t) ?_
    rw [hg]
    rw [show (process_users { db with profiles := g } us).1 = (process_users db us).1 from
      process_users_fst us db g]
    exact ih db

theorem process_users_profiles_ne : ∀ (us : List String) (db : DB) (v : String),
    v ∉ us → ((process_users db us).2).profiles v = db.profiles v := by
  intro us
  induction us with
  | nil => intro db v _; rfl
  | cons u us ih =>
    intro db v hv
    unfold process_users
    simp only []
    have hvu : v ≠ u := fun h => hv (h ▸ List.mem_cons_self u us)
    have hvus : v ∉ us := fun h => hv (List.mem_cons_of_mem u h)
    rw [ih (process_user db u).2 v hvus]
    exact process_user_profiles_ne db u v hvu

/-- After a batch over pairwise-distinct users, each user's final profile
entry is exactly what that user's own pipeline run wrote: user pipelines
touch disjoint keys. -/
theorem process_users_isolation : ∀ (us : List String) (db : DB) (v : String),
    us.Nodup → v ∈ us →
    ((process_users db us).2).profiles v = ((process_user db v).2).profiles v := by
  intro us
  induction us with
  | nil => intro db v _ hv; cases hv
  | cons u us ih =>
    intro db v hnd hv
    obtain ⟨hu, hnd'⟩ := List.nodup_cons.mp hnd
    unfold process_users
    simp only []
    rcases List.mem_cons.mp hv with rfl | hv'
    · rw [process_users_profiles_ne us (process_user db v).2 v hu]
    · have hvu : v ≠ u := fun h => hu (h ▸ hv')
      rw [ih (process_user db u).2 v hnd' hv']
      obtain ⟨g, hg⟩ := process_user_snd_form db u
      have hloc : ((process_user db u).2).profiles v = db.profiles v :=
        process_user_profiles_ne db u v hvu
      rw [hg] at hloc
      rw [hg]
      exact process_user_profiles_stable db g v v hloc

theorem countP_unique {p : String → Bool} : ∀ (us : List String) (u : String),
    us.Nodup → u ∈ us → p u = true → (∀ v ∈ us, v ≠ u → p v = false) →
    us.countP p = 1 := by
  intro us
  induction us with
  | nil => intro u _ hu; cases hu
  | cons w ws ih =>
    intro u hnd hu hp hothers
    obtain ⟨hw, hnd'⟩ := List.nodup_cons.mp hnd
    rw [List.countP_cons]
    rcases List.mem_cons.mp hu with rfl | hu'
    · have hz : ws.countP p = 0 := by
        rw [List.countP_eq_zero]
        intro v hv
        have hvne : v ≠ u := fun h => hw (h ▸ hv)
        simpa using hothers v (List.mem_cons_of_mem u hv) hvne
      rw [hz, hp]
      rfl
    · have hwu : w ≠ u := fun h => hw (h ▸ hu')
      have hpw : p w = false := hothers w (List.mem_cons_self w ws) hwu
      rw [ih u hnd' hu' hp (fun v hv hne => hothers v (List.mem_cons_of_mem w hv) hne),
        hpw]
      rfl

/-- Captured-error form: whenever a user's pipeline is error-classified —
whichever step raised (the fetch, a signature `TypeError` inside the
aggregation, or the persist call) — the outcome is the recorded exception
message behind the `"error: "` prefix, and that user's run wrote
nothing. -/
theorem process_user_error_form (db : DB) (u : String)
    (h : isErrorResult (process_user db u).1 = true) :
    ∃ e, (process_user db u).1 = "error: " ++ e ∧ (process_user db u).2 = db := by
  unfold process_user at h ⊢
  cases hg : generate_user_profile db u with
  | error e =>
    exact ⟨e, rfl, rfl⟩
  | ok po =>
    rw [hg] at h
    cases po with
    | none => simp [isErrorResult] at h
    | some p =>
      dsimp only at h ⊢
      unfold save_profile_call at h ⊢
      by_cases hb : db.persistFails p.user_id
      · rw [if_pos hb]
        exact ⟨"persist failed", rfl, rfl⟩
      · rw [if_neg hb] at h
        simp [isErrorResult] at h

/-! ## Claim C7: one user's failure is isolated -/

/-- C7: if one user's pipeline raises at any step — the fetch, the
aggregation (e.g. the signature `TypeError` on a null node type), or the
persist call — while the other users' pipelines do not, then that user's
outcome is the captured message (prefixed `"error: "`, not re-raised) and
their run writes nothing; the batch continues, every user's outcome in
the batch being the outcome of their own pipeline; the final tally counts
exactly the failing user as an error; and every other user's persisted
document is exactly what their own pipeline wrote, unaffected by the
failure. -/
theorem C7_failure_isolation (db : DB) (us : List String) (u : String)
    (hmem : u ∈ us) (hnodup : us.Nodup)
    (herr : isErrorResult (process_user db u).1 = true)
    (hothers : ∀ v ∈ us, v ≠ u → isErrorResult (process_user db v).1 = false) :
    (∃ e, (process_user db u).1 = "error: " ++ e)
    ∧ (process_user db u).2 = db
    ∧ (process_users db us).1 = us.map (fun v => (process_user db v).1)
    ∧ (run_batch db us).1.error = 1
    ∧ (∀ v ∈ us, v ≠ u →
        ((run_batch db us).2).profiles v = ((process_user db v).2).profiles v) := by
  obtain ⟨e, he1, he2⟩ := process_user_error_form db u herr
  refine ⟨⟨e, he1⟩, he2, process_users_results us db, ?_, ?_⟩
  · show (tallyOf (process_users db us).1).error = 1
    unfold tallyOf
    dsimp only
    rw [process_users_results us db, List.countP_map]
    exact countP_unique us u hnodup hmem herr hothers
  · intro v hv _
    exact process_users_isolation us db v hnodup hv

/-- Batch of two users: `u1` has in-window records and an email but its
fetch raises; `u2` is a normal success. -/
def c7db : DB :=
  { userEmail := fun _ => some "someone"
    flowTasks := fun v =>
      if v == "u2" then
        [{ flow_task_id := .str "t1", created_at := some ⟨2025, 11, 2, 3, 4, 5⟩ }]
      else
        [{ flow_task_id := .str "t9", created_at := some ⟨2025, 11, 3, 0, 0, 0⟩ }]
    userFlows := fun _ => []
    flowDetails := fun _ => none
    profiles := fun _ => none
    fetchFails := fun v => v == "u1"
    persistFails := fun _ => false
    now := ⟨2026, 1, 28, 0, 0, 0⟩ }

/-- Like `c7db`, but `u1` fails during aggregation instead: one of its
records has a null node type next to a string one, so the signature
`sorted` raises `TypeError` inside the grouping loop. -/
def c7adb : DB :=
  { userEmail := fun _ => some "someone"
    flowTasks := fun v =>
      if v == "u2" then
        [{ flow_task_id := .str "t1", created_at := some ⟨2025, 11, 2, 3, 4, 5⟩ }]
      else
        [{ flow_task_id := .str "t8",
           nodes := [{ type_field := some none }, mkTNode "x"],
           created_at := some ⟨2025, 11, 3, 0, 0, 0⟩ }]
    userFlows := fun _ => []
    flowDetails := fun _ => none
    profiles := fun _ => none
    fetchFails := fun _ => false
    persistFails := fun _ => false
    now := ⟨2026, 1, 28, 0, 0, 0⟩ }

/-- Like `c7db`, but `u1` fails during persist: its pipeline computes a
profile and the `update_one` raises. -/
def c7pdb : DB :=
  { userEmail := fun _ => some "someone"
    flowTasks := fun v =>
      if v == "u2" then
        [{ flow_task_id := .str "t1", created_at := some ⟨2025, 11, 2, 3, 4, 5⟩ }]
      else
        [{ flow_task_id := .str "t9", created_at := some ⟨2025, 11, 3, 0, 0, 0⟩ }]
    userFlows := fun _ => []
    flowDetails := fun _ => none
    profiles := fun _ => none
    fetchFails := fun _ => false
    persistFails := fun v => v == "u1"
    now := ⟨2026, 1, 28, 0, 0, 0⟩ }

/-- Witness for C7 on three two-user batches, one per failing step:
fetch (`c7db`), aggregation (`c7adb`), persist (`c7pdb`). -/
theorem C7_failure_isolation_witness :
    ((process_user c7db "u1").1 = "error: fetch failed"
      ∧ (run_batch c7db ["u1", "u2"]).1.error = 1
      ∧ (process_user c7db "u1").2 = c7db)
    ∧ ((process_user c7adb "u1").1 = "error: TypeError: unorderable types"
      ∧ (run_batch c7adb ["u1", "u2"]).1.error = 1
      ∧ (process_user c7adb "u1").2 = c7adb)
    ∧ ((process_user c7pdb "u1").1 = "error: persist failed"
      ∧ (run_batch c7pdb ["u1", "u2"]).1.error = 1
      ∧ (process_user c7pdb "u1").2 = c7pdb)
    ∧ (∀ v ∈ ["u1", "u2"], v ≠ "u1" →
        ((run_batch c7pdb ["u1", "u2"]).2).profiles v
          = ((process_user c7pdb v).2).profiles v) := by
  have h1 := C7_failure_isolation c7db ["u1", "u2"] "u1"
    (by decide) (by decide) (by decide) (by decide)
  have h2 := C7_failure_isolation c7adb ["u1", "u2"] "u1"
    (by decide) (by decide) (by decide) (by decide)
  have h3 := C7_failure_isolation c7pdb ["u1", "u2"] "u1"
    (by decide) (by decide) (by decide) (by decide)
  exact ⟨⟨by rfl, h1.2.2.2.1, h1.2.1⟩, ⟨by rfl, h2.2.2.2.1, h2.2.1⟩,
    ⟨by rfl, h3.2.2.2.1, h3.2.1⟩, h3.2.2.2.2⟩

/-! ## Fingerprint lemmas (C2) -/

/-- The strict sort order on counted pairs: key order plus distinct
rendered keys.  Antisymmetric, so a sorted arrangement is unique. -/
def keyStrict (p q : Option String × Nat) : Prop :=
  keyLe p q ∧ pyStrOfKey p.1 ≠ pyStrOfKey q.1

instance : IsAntisymm (Option String × Nat) keyStrict :=
  ⟨fun _ _ h1 h2 => absurd (strLeB_antisymm h1.1 h2.1) h1.2⟩

theorem mem_countTypes {nodes : List Node} {p : Option String × Nat} :
    p ∈ countTypes nodes ↔
      p.1 ∈ typeKeys nodes ∧ p.2 = (typeKeys nodes).count p.1 := by
  unfold countTypes
  constructor
  · intro hp
    obtain ⟨k, hk, hkp⟩ := List.mem_map.mp hp
    obtain rfl := hkp.symm
    exact ⟨mem_firstSeen.mp hk, rfl⟩
  · rintro ⟨h1, h2⟩
    refine List.mem_map.mpr ⟨p.1, mem_firstSeen.mpr h1, ?_⟩
    rw [← h2]

theorem nodup_countTypes (nodes : List Node) : (countTypes nodes).Nodup := by
  unfold countTypes
  refine List.Nodup.map_on ?_ (nodup_firstSeen _)
  intro x _ y _ hxy
  exact congrArg Prod.fst hxy

theorem perm_count_eq {α : Type} [BEq α] {l1 l2 : List α}
    (h : List.Perm l1 l2) (a : α) : l1.count a = l2.count a := by
  rw [List.count_eq_countP, List.count_eq_countP]
  exact h.countP_eq _

theorem countTypes_perm {n1 n2 : List Node}
    (h : List.Perm (typeKeys n1) (typeKeys n2)) :
    List.Perm (countTypes n1) (countTypes n2) := by
  refine (List.perm_ext_iff_of_nodup (nodup_countTypes n1) (nodup_countTypes n2)).mpr ?_
  intro p
  rw [mem_countTypes, mem_countTypes, h.mem_iff, perm_count_eq h]

/-- When the rendered keys of `l` are distinct, the insertion sort by key
is sorted for the strict (antisymmetric) order. -/
theorem sorted_insertionSort_strict (l : List (Option String × Nat))
    (hnd : (l.map (fun p => pyStrOfKey p.1)).Nodup) :
    List.Sorted keyStrict (List.insertionSort keyLe l) := by
  have hs : List.Sorted keyLe (List.insertionSort keyLe l) :=
    List.sorted_insertionSort keyLe l
  have hperm : List.Perm (List.insertionSort keyLe l) l :=
    List.perm_insertionSort keyLe l
  have hnd' : ((List.insertionSort keyLe l).map (fun p => pyStrOfKey p.1)).Nodup :=
    ((hperm.map (fun p => pyStrOfKey p.1)).nodup_iff).mpr hnd
  have hne : (List.insertionSort keyLe l).Pairwise
      (fun p q => pyStrOfKey p.1 ≠ pyStrOfKey q.1) :=
    List.pairwise_map.mp hnd'
  exact hs.and hne

/-- The per-node coercion agrees with the spec key on null-free nodes. -/
theorem typeKeys_of_no_null {nodes : List Node}
    (hnull : ∀ n ∈ nodes, n.type_field ≠ some none) :
    typeKeys nodes = (specKeys nodes).map some := by
  unfold typeKeys specKeys
  rw [List.map_map]
  refine List.map_congr_left ?_
  intro n hn
  cases htf : n.type_field with
  | none => simp [nodeTypeKey, specKey, htf]
  | some v =>
    cases v with
    | none => exact absurd htf (hnull n hn)
    | some t => simp [nodeTypeKey, specKey, htf]

theorem count_map_some (l : List String) (s : String) :
    (l.map some).count (some s) = l.count s := by
  induction l with
  | nil => rfl
  | cons x xs ih =>
    rw [List.map_cons, List.count_cons, List.count_cons, ih,
      show ((some x == some s) : Bool) = (x == s) from rfl]

theorem countTypes_of_no_null {nodes : List Node}
    (hnull : ∀ n ∈ nodes, n.type_field ≠ some none) :
    countTypes nodes
      = (firstSeen (specKeys nodes)).map
          (fun s => (some s, (specKeys nodes).count s)) := by
  unfold countTypes
  rw [typeKeys_of_no_null hnull,
    firstSeen_map (Option.some_injective String) (specKeys nodes), List.map_map]
  refine List.map_congr_left ?_
  intro s _
  simp only [Function.comp_apply]
  rw [count_map_some]

instance : IsTotal String (fun a b => strLeB a b = true) := ⟨strLeB_total⟩

instance : IsTrans String (fun a b => strLeB a b = true) :=
  ⟨fun _ _ _ => strLeB_trans⟩

/-- On null-free inputs the code's signature equals the spec's reference
signature. -/
theorem sig_eq_spec (nodes : List Node)
    (hnull : ∀ n ∈ nodes, n.type_field ≠ some none) :
    generate_workflow_signature nodes = .ok (specSignature nodes) := by
  cases nodes with
  | nil => rfl
  | cons n0 ns =>
    have hc := countTypes_of_no_null hnull
    have hnoerr : ¬(2 ≤ (countTypes (n0 :: ns)).length ∧
        (countTypes (n0 :: ns)).any (fun p => p.1.isNone) = true) := by
      rintro ⟨-, hany⟩
      obtain ⟨p, hp, hnone⟩ := List.any_eq_true.mp hany
      rw [hc] at hp
      obtain ⟨s, -, hs⟩ := List.mem_map.mp hp
      rw [← hs] at hnone
      simp at hnone
    have hndF : ((countTypes (n0 :: ns)).map (fun p => pyStrOfKey p.1)).Nodup := by
      rw [hc, List.map_map]
      rw [show ((fun (p : Option String × Nat) => pyStrOfKey p.1) ∘
          (fun s => (some s, (specKeys (n0 :: ns)).count s))) = (fun s => s) from rfl]
      rw [List.map_id']
      exact nodup_firstSeen _
    have hndS : (List.insertionSort (fun a b => strLeB a b = true)
        (firstSeen (specKeys (n0 :: ns)))).Nodup :=
      ((List.perm_insertionSort _ _).nodup_iff).mpr (nodup_firstSeen _)
    have hEq : List.insertionSort keyLe (countTypes (n0 :: ns))
        = (List.insertionSort (fun a b => strLeB a b = true)
            (firstSeen (specKeys (n0 :: ns)))).map
            (fun s => (some s, (specKeys (n0 :: ns)).count s)) := by
      apply List.eq_of_perm_of_sorted (r := keyStrict)
      · have p1 := List.perm_insertionSort keyLe (countTypes (n0 :: ns))
        nth_rewrite 2 [hc] at p1
        have p3 := (List.perm_insertionSort (fun a b => strLeB a b = true)
          (firstSeen (specKeys (n0 :: ns)))).map
          (fun s => (some s, (specKeys (n0 :: ns)).count s))
        exact p1.trans p3.symm
      · exact sorted_insertionSort_strict _ hndF
      · have hsF : List.Sorted (fun a b => strLeB a b = true)
            (List.insertionSort (fun a b => strLeB a b = true)
              (firstSeen (specKeys (n0 :: ns)))) :=
          List.sorted_insertionSort _ _
        refine List.pairwise_map.mpr ?_
        exact (hsF.and hndS).imp (fun h => ⟨h.1, h.2⟩)
    unfold generate_workflow_signature specSignature
    dsimp only
    rw [if_neg hnoerr, hEq, List.map_map]
    rfl

theorem firstSeen_cons_length [DecidableEq α] (x : α) (xs : List α) :
    1 ≤ (firstSeen (x :: xs)).length := by
  simp [firstSeen, firstSeenAux]

/-- The signature depends only on the multiset of per-node counting keys:
any permutation of the keys (hence any reordering of the nodes, and any
change to node data, ids or edges) yields the same outcome, error or not. -/
theorem sig_multiset (n1 n2 : List Node)
    (h : List.Perm (typeKeys n1) (typeKeys n2)) :
    generate_workflow_signature n1 = generate_workflow_signature n2 := by
  cases n1 with
  | nil =>
    cases n2 with
    | nil => rfl
    | cons b bs =>
      have hl := h.length_eq
      simp [typeKeys] at hl
  | cons a as =>
    cases n2 with
    | nil =>
      have hl := h.length_eq
      simp [typeKeys] at hl
    | cons b bs =>
      have hperm : List.Perm (countTypes (a :: as)) (countTypes (b :: bs)) :=
        countTypes_perm h
      have hlen : (countTypes (a :: as)).length = (countTypes (b :: bs)).length :=
        hperm.length_eq
      have hany : ((countTypes (a :: as)).any (fun p => p.1.isNone))
          = ((countTypes (b :: bs)).any (fun p => p.1.isNone)) := by
        rw [Bool.eq_iff_iff, List.any_eq_true, List.any_eq_true]
        constructor
        · rintro ⟨p, hp, hb⟩
          exact ⟨p, hperm.mem_iff.mp hp, hb⟩
        · rintro ⟨p, hp, hb⟩
          exact ⟨p, hperm.mem_iff.mpr hp, hb⟩
      unfold generate_workflow_signature
      dsimp only
      by_cases hcond : 2 ≤ (countTypes (a :: as)).length ∧
          (countTypes (a :: as)).any (fun p => p.1.isNone) = true
      · rw [if_pos hcond, if_pos (by rw [← hlen, ← hany]; exact hcond)]
      · rw [if_neg hcond, if_neg (by rw [← hlen, ← hany]; exact hcond)]
        refine congrArg Except.ok (congrArg (String.intercalate ",")
          (congrArg (List.map renderPair) ?_))
        by_cases hnone : (countTypes (a :: as)).any (fun p => p.1.isNone) = true
        · have hne1 : (countTypes (a :: as)).length = 1 := by
            have hge : 1 ≤ (firstSeen (typeKeys (a :: as))).length := by
              rw [show typeKeys (a :: as) = nodeTypeKey a :: (as.map nodeTypeKey) from rfl]
              exact firstSeen_cons_length _ _
            have hlen1 : (countTypes (a :: as)).length
                = (firstSeen (typeKeys (a :: as))).length := by
              unfold countTypes
              rw [List.length_map]
            by_contra hne
            exact hcond ⟨by omega, hnone⟩
          obtain ⟨p, hp⟩ := List.length_eq_one.mp hne1
          have hp2 : countTypes (b :: bs) = [p] := by
            rw [hp] at hperm
            exact (List.singleton_perm.mp hperm).symm
          rw [hp, hp2]
        · have hmemSome : ∀ p ∈ countTypes (a :: as), p.1 ≠ none := by
            intro p hp hisnone
            exact hnone (List.any_eq_true.mpr ⟨p, hp, by rw [hisnone]; rfl⟩)
          have hnd1 : ((countTypes (a :: as)).map (fun p => pyStrOfKey p.1)).Nodup := by
            refine List.Nodup.map_on ?_ (nodup_countTypes _)
            rintro ⟨x1, x2⟩ hx ⟨y1, y2⟩ hy hxy
            obtain ⟨hx1, hx2⟩ := mem_countTypes.mp hx
            obtain ⟨hy1, hy2⟩ := mem_countTypes.mp hy
            cases x1 with
            | none => exact absurd rfl (hmemSome _ hx)
            | some sx =>
              cases y1 with
              | none => exact absurd rfl (hmemSome _ hy)
              | some sy =>
                have hss : sx = sy := hxy
                subst hss
                simp only [] at hx2 hy2
                rw [hx2, hy2]
          have hnd2 : ((countTypes (b :: bs)).map (fun p => pyStrOfKey p.1)).Nodup :=
            ((hperm.map (fun p => pyStrOfKey p.1)).nodup_iff).mp hnd1
          apply List.eq_of_perm_of_sorted (r := keyStrict)
          · exact (List.perm_insertionSort _ _).trans
              (hperm.trans (List.perm_insertionSort _ _).symm)
          · exact sorted_insertionSort_strict _ hnd1
          · exact sorted_insertionSort_strict _ hnd2

/-! ## Claim C2: fingerprint refinement -/

/-- C2 (amended): on node lists with no literal-null `type`, the code's
signature equals the spec's reference definition (missing type counted
as `"unknown"`, pairs sorted by ascending type name case-sensitively,
comma-joined, empty input giving `"empty"`); and unconditionally the
outcome depends only on the multiset of per-node counting keys — never
on node order, node data, node ids or edges.  A literal null type,
however, is counted under Python `None` rather than `"unknown"` (see the
counterexample). -/
theorem C2_signature_refinement (nodes nodes' : List Node) :
    ((∀ n ∈ nodes, n.type_field ≠ some none) →
        generate_workflow_signature nodes = .ok (specSignature nodes))
    ∧ (List.Perm (typeKeys nodes) (typeKeys nodes') →
        generate_workflow_signature nodes = generate_workflow_signature nodes') :=
  ⟨sig_eq_spec nodes, sig_multiset nodes nodes'⟩

/-- A node whose `type` key is present with value null. -/
def nullNode : Node := { type_field := some none }

/-- C2 as stated is false: a null-typed node is not counted under
`"unknown"` — alone it renders as `"None:1"`, and mixed with a string
type the `sorted` call raises `TypeError`. -/
theorem C2_signature_counterexample :
    generate_workflow_signature [nullNode] = .ok "None:1"
    ∧ specSignature [nullNode] = "unknown:1"
    ∧ generate_workflow_signature [nullNode] ≠ .ok (specSignature [nullNode])
    ∧ generate_workflow_signature [nullNode, mkTNode "a"]
        = .error "TypeError: unorderable types" := by
  refine ⟨rfl, rfl, ?_, rfl⟩
  intro hcontra
  injection hcontra with h2
  exact absurd h2 (by decide)

/-- Node lists with the same key multiset in different orders, with
different data payloads, one node missing its type key. -/
def c2nodes : List Node := [mkTNode "b", { type_field := none }, mkTNode "a"]

/-- See `c2nodes`. -/
def c2nodes' : List Node :=
  [{ type_field := none, data := [("x", .str "y")] }, mkTNode "a", mkTNode "b"]

/-- Witness for C2 on `c2nodes`/`c2nodes'`. -/
theorem C2_signature_refinement_witness :
    generate_workflow_signature c2nodes = .ok (specSignature c2nodes)
    ∧ generate_workflow_signature c2nodes = generate_workflow_signature c2nodes'
    ∧ generate_workflow_signature c2nodes = .ok "a:1,b:1,unknown:1" :=
  ⟨(C2_signature_refinement c2nodes c2nodes').1 (by decide),
   (C2_signature_refinement c2nodes c2nodes').2 (by decide),
   by rfl⟩

end UPA
